import Mathlib

/-!
Shallow embedding of `src/main.py` (jwt-invalidation-benchmark): a JWT
revocation registry with an exact, expiry-aware Redis backend
(`CacheTokenInvalidator`), a probabilistic Bloom-filter backend
(`BloomFilterTokenInvalidator`), shared key derivation
(`RedisTokenInvalidator.get_invalidation_cache_key`), and the synthetic
token generator (`jwt_token_generator`).

Python dictionaries of decoded claims are modelled by `TokenClaims`
(each field optional, as `dict.get` returns `None` for absent keys);
Python truthiness is modelled explicitly; Python exceptions are the
error channel of `Except`.  Times are integers (seconds since epoch),
as the source uses `int(time.time())` everywhere.
-/

/-- Python exceptions raised (not merely constructed) by the code:
`ValueError` from key derivation, `TypeError` from `None - int`. -/
inductive PyError where
  | valueError
  | typeError
deriving DecidableEq, Repr

/-- Values returned by `invalidate_token`: either a `bool`, or the
`ValueError` *object* that the buggy `return ValueError(...)` branches
return without raising. -/
inductive PyReturn where
  | bool (b : Bool)
  | valueErrorObj
deriving DecidableEq, Repr

/-- A decoded token's claims dictionary restricted to the three keys the
program reads: `aud`, `jti`, `exp`.  `none` models an absent key. -/
structure TokenClaims where
  aud : Option String
  jti : Option String
  exp : Option Int
deriving DecidableEq, Repr

/-- Python truthiness of a string: `""` is falsy, everything else truthy. -/
def truthyStr (s : String) : Bool := !s.data.isEmpty

/-- Python truthiness of `dict.get("aud")` / `dict.get("jti")`:
`None` and `""` are falsy. -/
def truthyOptStr : Option String → Bool
  | none => false
  | some s => truthyStr s

/-- Python truthiness of `dict.get("exp")`: `None` and `0` are falsy. -/
def truthyOptInt : Option Int → Bool
  | none => false
  | some e => decide (e ≠ 0)

/-- Python `f"{x}"` on an optional string: `None` prints as `"None"`. -/
def pyStr : Option String → String
  | none => "None"
  | some s => s

namespace RedisTokenInvalidator

/-- `RedisTokenInvalidator.get_invalidation_cache_key`:
raises `ValueError` when `not (jti or aud)`, i.e. when *both* claims are
falsy (absent or empty); otherwise returns
`f"jwt-blacklist:{aud}:{jti}"`. -/
def get_invalidation_cache_key (decoded_token : TokenClaims) : Except PyError String :=
  let aud := decoded_token.aud
  let jti := decoded_token.jti
  if !(truthyOptStr jti || truthyOptStr aud) then
    .error .valueError
  else
    .ok ("jwt-blacklist:" ++ pyStr aud ++ ":" ++ pyStr jti)

end RedisTokenInvalidator

instance {ε α : Type} [DecidableEq ε] [DecidableEq α] : DecidableEq (Except ε α) := fun x y =>
  match x, y with
  | .error e, .error f => decidable_of_iff (e = f) (by simp)
  | .error _, .ok _ => isFalse (by simp)
  | .ok _, .error _ => isFalse (by simp)
  | .ok a, .ok b => decidable_of_iff (a = b) (by simp)

/-- The Redis key/value database backing `CacheTokenInvalidator`, seen
through the operations the program uses (`set key 1 ex=ttl`, `get`,
`flushall`).  Every stored value is the dummy `1`, so the state is just
each key's absolute expiry deadline (`none` = key absent). -/
def ExactStore : Type := String → Option Int

/-- Redis `SET key 1 EX ttl` issued at absolute time `now`: the key's
deadline becomes `now + ttl`. -/
def storeSet (s : ExactStore) (key : String) (now ttl : Int) : ExactStore :=
  fun k => if k = key then some (now + ttl) else s k

/-- Redis `GET key` at absolute time `now`: returns the stored dummy
value `1` while the key is unexpired (`now < deadline`), else `None`
(Redis removes a key once its TTL has elapsed). -/
def storeGet (s : ExactStore) (key : String) (now : Int) : Option Int :=
  match s key with
  | some deadline => if now < deadline then some 1 else none
  | none => none

namespace CacheTokenInvalidator

/-- `CacheTokenInvalidator.invalidate_token`, with the wall clock
`int(time.time())` made an explicit argument `now`.  Mirrors the source:
derive the key; `if not (key or exp): return ValueError(...)` (returned,
not raised); `ttl = exp - int(time.time())` (a `TypeError` when `exp` is
`None`); store the key with that ttl when `ttl > 0`; `return True`. -/
def invalidate_token (s : ExactStore) (decoded_token : TokenClaims) (now : Int) :
    Except PyError (ExactStore × PyReturn) :=
  match RedisTokenInvalidator.get_invalidation_cache_key decoded_token with
  | .error e => .error e
  | .ok key =>
    let exp := decoded_token.exp
    if !(truthyStr key || truthyOptInt exp) then
      .ok (s, .valueErrorObj)
    else
      match exp with
      | none => .error .typeError
      | some e =>
        let ttl := e - now
        if ttl > 0 then .ok (storeSet s key now ttl, .bool true)
        else .ok (s, .bool true)

/-- `CacheTokenInvalidator.is_token_valid` at wall-clock time `now`:
derive the key; invalid iff the key is (truthy and) present in the
store with its (truthy) dummy value. -/
def is_token_valid (s : ExactStore) (decoded_token : TokenClaims) (now : Int) :
    Except PyError Bool :=
  match RedisTokenInvalidator.get_invalidation_cache_key decoded_token with
  | .error e => .error e
  | .ok key =>
    if truthyStr key && (storeGet s key now).isSome then .ok false
    else .ok true

/-- `RedisTokenInvalidator.clear` (`store.flushall()`) on the exact
backend: every key is deleted. -/
def clear (_s : ExactStore) : ExactStore := fun _ => none

end CacheTokenInvalidator

/-- Modelled from the spec: the `walrus.BloomFilter` backing store is an
external collaborator (spec §6: probabilistic-set operations
`add(handle, key)` / `contains(handle, key)`), not part of `src/`.  It
is modelled as a bit array indexed by `Nat` together with an abstract
family `hash : String → List Nat` of bit positions for each key —
`add` sets the key's bits, `contains` tests whether they are all set.
This captures exactly the structure's one-sided error: false positives
are possible (other keys may have set the same bits), false negatives
are not (bits are never unset). -/
def BloomState : Type := Nat → Bool

/-- Modelled from the spec: `BloomFilter.add` sets every bit of the key. -/
def bloomAdd (hash : String → List Nat) (s : BloomState) (key : String) : BloomState :=
  fun i => s i || decide (i ∈ hash key)

/-- Modelled from the spec: `BloomFilter.contains` tests all bits of the key. -/
def bloomContains (hash : String → List Nat) (s : BloomState) (key : String) : Bool :=
  (hash key).all fun i => s i

namespace BloomFilterTokenInvalidator

/-- `BloomFilterTokenInvalidator.invalidate_token`: derive the key;
`if not key: return ValueError(...)` (returned, not raised); add the
key to the Bloom filter; `return True`. -/
def invalidate_token (hash : String → List Nat) (s : BloomState)
    (decoded_token : TokenClaims) : Except PyError (BloomState × PyReturn) :=
  match RedisTokenInvalidator.get_invalidation_cache_key decoded_token with
  | .error e => .error e
  | .ok key =>
    if !truthyStr key then .ok (s, .valueErrorObj)
    else .ok (bloomAdd hash s key, .bool true)

/-- `BloomFilterTokenInvalidator.is_token_valid`: invalid iff the key is
(truthy and) reported present by the Bloom filter. -/
def is_token_valid (hash : String → List Nat) (s : BloomState)
    (decoded_token : TokenClaims) : Except PyError Bool :=
  match RedisTokenInvalidator.get_invalidation_cache_key decoded_token with
  | .error e => .error e
  | .ok key =>
    if truthyStr key && bloomContains hash s key then .ok false
    else .ok true

/-- `RedisTokenInvalidator.clear` (`store.flushall()`) on the Bloom
backend: the filter's backing key is deleted, so every bit reads 0. -/
def clear (_s : BloomState) : BloomState := fun _ => false

/-- A sequence of `invalidate_token` calls, threading the filter state;
an exception raised by any call aborts the sequence. -/
def run (hash : String → List Nat) (s : BloomState) :
    List TokenClaims → Except PyError BloomState
  | [] => .ok s
  | c :: rest =>
    match invalidate_token hash s c with
    | .error e => .error e
    | .ok (s2, _) => run hash s2 rest

end BloomFilterTokenInvalidator

/-- The hard-coded token validity window of `jwt_token_generator`:
`60 * 60 * 24 * 14` seconds (the comment in the source: two weeks). -/
def validityWindow : Int := 60 * 60 * 24 * 14

/-- One claims dictionary yielded by `jwt_token_generator`: audience
`"foo-bar"`, the `k`-th freshly generated uuid, and expiry equal to the
generation-time clock reading plus the two-week window. -/
def generatedToken (ids : Nat → String) (clock : Nat → Int) (k : Nat) : TokenClaims :=
  { aud := some "foo-bar", jti := some (ids k), exp := some (clock k + validityWindow) }

/-- The generator's loop from counter value `count`: while
`count <= num - 1`, yield a token and increment, else break.  The
nondeterministic environment is explicit: `ids k` is the `k`-th
`uuid.uuid4()` result and `clock k` the `k`-th `int(time.time())`. -/
def jwt_token_generator_from (num : Int) (ids : Nat → String) (clock : Nat → Int)
    (count : Nat) : List TokenClaims :=
  if h : (count : Int) ≤ num - 1 then
    generatedToken ids clock count :: jwt_token_generator_from num ids clock (count + 1)
  else []
termination_by (num - count).toNat
decreasing_by
  simp_wf
  omega

/-- `jwt_token_generator(num)`: the full yielded sequence, starting at
`count = 0`. -/
def jwt_token_generator (num : Int) (ids : Nat → String) (clock : Nat → Int) :
    List TokenClaims :=
  jwt_token_generator_from num ids clock 0

theorem truthyStr_iff (s : String) : truthyStr s = true ↔ s ≠ "" := by
  have hdata : s = "" ↔ s.data = [] := by rw [String.ext_iff]
  simp [truthyStr, hdata]

theorem truthyStr_append_bl (x : String) : truthyStr ("jwt-blacklist:" ++ x) = true := by
  simp [truthyStr, String.data_append]

theorem get_key_ok (c : TokenClaims)
    (h : (truthyOptStr c.jti || truthyOptStr c.aud) = true) :
    RedisTokenInvalidator.get_invalidation_cache_key c =
      .ok ("jwt-blacklist:" ++ pyStr c.aud ++ ":" ++ pyStr c.jti) := by
  simp [RedisTokenInvalidator.get_invalidation_cache_key, h]

theorem get_key_error (c : TokenClaims)
    (h : (truthyOptStr c.jti || truthyOptStr c.aud) = false) :
    RedisTokenInvalidator.get_invalidation_cache_key c = .error .valueError := by
  simp [RedisTokenInvalidator.get_invalidation_cache_key, h]

theorem get_key_shape (c : TokenClaims) (k : String)
    (h : RedisTokenInvalidator.get_invalidation_cache_key c = .ok k) :
    k = "jwt-blacklist:" ++ pyStr c.aud ++ ":" ++ pyStr c.jti := by
  by_cases hc : (truthyOptStr c.jti || truthyOptStr c.aud) = true
  · rw [get_key_ok c hc] at h
    exact (Except.ok.inj h).symm
  · rw [get_key_error c (by simpa using hc)] at h
    exact absurd h (by simp)

theorem get_key_truthy (c : TokenClaims) (k : String)
    (h : RedisTokenInvalidator.get_invalidation_cache_key c = .ok k) :
    truthyStr k = true := by
  rw [get_key_shape c k h]
  have : "jwt-blacklist:" ++ pyStr c.aud ++ ":" ++ pyStr c.jti =
      "jwt-blacklist:" ++ (pyStr c.aud ++ ":" ++ pyStr c.jti) := by
    simp [String.append_assoc]
  rw [this]
  exact truthyStr_append_bl _

theorem colon_split (xs : List Char) : ∀ (ys zs ws : List Char),
    ':' ∉ xs → ':' ∉ ys → xs ++ ':' :: zs = ys ++ ':' :: ws → xs = ys ∧ zs = ws := by
  induction xs with
  | nil =>
    intro ys zs ws _ hy h
    cases ys with
    | nil => simpa using h
    | cons y ys =>
      simp only [List.nil_append, List.cons_append, List.cons.injEq] at h
      exact absurd (h.1 ▸ List.mem_cons_self y ys) hy
  | cons x xs ih =>
    intro ys zs ws hx hy h
    cases ys with
    | nil =>
      simp only [List.cons_append, List.nil_append, List.cons.injEq] at h
      exact absurd (h.1 ▸ List.mem_cons_self x xs) hx
    | cons y ys =>
      simp only [List.cons_append, List.cons.injEq] at h
      have hrec := ih ys zs ws (fun hm => hx (List.mem_cons_of_mem x hm))
        (fun hm => hy (List.mem_cons_of_mem y hm)) h.2
      exact ⟨by rw [h.1, hrec.1], hrec.2⟩

theorem key_data (a j : String) :
    ("jwt-blacklist:" ++ a ++ ":" ++ j).data =
      "jwt-blacklist:".data ++ (a.data ++ ':' :: j.data) := by
  simp [String.data_append]

/-- C3 (corrected): key derivation raises `ValueError` exactly when *both*
the audience and the unique id are empty or absent (the guard is
`not (jti or aud)`, not `not (jti and aud)`), and in that case all four
backend operations (`invalidate_token` / `is_token_valid` on the exact
and on the Bloom backend) propagate the exception rather than returning
a result.  When at least one of the two fields is truthy, derivation
succeeds. -/
theorem invalid_claims_iff_both_missing (c : TokenClaims) (s : ExactStore)
    (hash : String → List Nat) (sb : BloomState) (now t : Int) :
    ((truthyOptStr c.aud = false ∧ truthyOptStr c.jti = false) →
       RedisTokenInvalidator.get_invalidation_cache_key c = .error .valueError
       ∧ CacheTokenInvalidator.invalidate_token s c now = .error .valueError
       ∧ CacheTokenInvalidator.is_token_valid s c t = .error .valueError
       ∧ BloomFilterTokenInvalidator.invalidate_token hash sb c = .error .valueError
       ∧ BloomFilterTokenInvalidator.is_token_valid hash sb c = .error .valueError)
    ∧ ((truthyOptStr c.aud = true ∨ truthyOptStr c.jti = true) →
       ∃ k, RedisTokenInvalidator.get_invalidation_cache_key c = .ok k) := by
  constructor
  · intro ⟨ha, hj⟩
    have hk : RedisTokenInvalidator.get_invalidation_cache_key c = .error .valueError :=
      get_key_error c (by simp [ha, hj])
    refine ⟨hk, ?_, ?_, ?_, ?_⟩ <;>
      simp [CacheTokenInvalidator.invalidate_token, CacheTokenInvalidator.is_token_valid,
        BloomFilterTokenInvalidator.invalidate_token,
        BloomFilterTokenInvalidator.is_token_valid, hk]
  · intro h
    refine ⟨_, get_key_ok c ?_⟩
    rcases h with h | h <;> simp [h]

/-- C3 counterexample: for a claims dictionary whose unique id is absent
but whose audience is present ( `{aud: "a"}` ), key derivation does NOT
raise: it returns the key `"jwt-blacklist:a:None"` (Python interpolates
`None`), and `is_token_valid` happily returns a result.  This refutes
the claim's "either field, not only both". -/
theorem invalid_claims_missing_jti_not_raised :
    (⟨some "a", none, none⟩ : TokenClaims).jti = none
    ∧ RedisTokenInvalidator.get_invalidation_cache_key ⟨some "a", none, none⟩ =
        .ok "jwt-blacklist:a:None"
    ∧ CacheTokenInvalidator.is_token_valid (fun _ => none) ⟨some "a", none, none⟩ 0 =
        .ok true := by
  refine ⟨rfl, by decide, ?_⟩
  simp [CacheTokenInvalidator.is_token_valid,
    RedisTokenInvalidator.get_invalidation_cache_key, storeGet, truthyOptStr, truthyStr, pyStr]

/-- C6 (corrected, amended part): for claims with both `aud` and `jti`
present and not both empty, `get_invalidation_cache_key` returns exactly
`"jwt-blacklist:" + aud + ":" + jti`; being a pure function of the
claims, the result is identical across repeated calls. -/
theorem get_key_format (a j : String) (e : Option Int) (h : a ≠ "" ∨ j ≠ "") :
    RedisTokenInvalidator.get_invalidation_cache_key ⟨some a, some j, e⟩ =
      .ok ("jwt-blacklist:" ++ a ++ ":" ++ j) := by
  have ht : (truthyOptStr (some j) || truthyOptStr (some a)) = true := by
    rcases h with h | h
    · simp [truthyOptStr, (truthyStr_iff a).2 h]
    · simp [truthyOptStr, (truthyStr_iff j).2 h]
  simpa [pyStr] using get_key_ok ⟨some a, some j, e⟩ ht

/-- C6 counterexample: both fields present but empty ( `{aud:"", jti:""}` ):
the code raises `ValueError` instead of returning `"jwt-blacklist::"`,
refuting the claim for claims dictionaries with both fields present but
empty. -/
theorem get_key_both_empty_not_format :
    RedisTokenInvalidator.get_invalidation_cache_key ⟨some "", some "", none⟩ =
      .error .valueError
    ∧ RedisTokenInvalidator.get_invalidation_cache_key ⟨some "", some "", none⟩ ≠
      .ok ("jwt-blacklist:" ++ "" ++ ":" ++ "") := by
  exact ⟨by decide, by decide⟩

/-- C7 (corrected, amended part): key derivation is injective on
(audience, unique id) pairs *provided the audiences contain no `':'`
separator* (and both fields are present with at least one non-empty, so
that derivation succeeds): different pairs then yield different keys. -/
theorem get_key_injective_colon_free (a1 j1 a2 j2 : String) (e1 e2 : Option Int)
    (ha1 : ':' ∉ a1.data) (ha2 : ':' ∉ a2.data)
    (hne : (a1, j1) ≠ (a2, j2))
    (h1 : a1 ≠ "" ∨ j1 ≠ "") (h2 : a2 ≠ "" ∨ j2 ≠ "") :
    RedisTokenInvalidator.get_invalidation_cache_key ⟨some a1, some j1, e1⟩ ≠
      RedisTokenInvalidator.get_invalidation_cache_key ⟨some a2, some j2, e2⟩ := by
  rw [get_key_format a1 j1 e1 h1, get_key_format a2 j2 e2 h2]
  intro h
  have hk : ("jwt-blacklist:" ++ a1 ++ ":" ++ j1) = "jwt-blacklist:" ++ a2 ++ ":" ++ j2 :=
    Except.ok.inj h
  have hd := congrArg String.data hk
  rw [key_data, key_data] at hd
  have hsplit := colon_split a1.data a2.data j1.data j2.data ha1 ha2
    (List.append_cancel_left hd)
  exact hne (by rw [String.ext hsplit.1, String.ext hsplit.2])

/-- C7 counterexample: the separator character can be smuggled into the
audience: `(aud "a:b", jti "c")` and `(aud "a", jti "b:c")` are different
pairs but derive the identical key `"jwt-blacklist:a:b:c"`. -/
theorem get_key_collision :
    ((some "a:b", some "c") : Option String × Option String) ≠ (some "a", some "b:c")
    ∧ RedisTokenInvalidator.get_invalidation_cache_key ⟨some "a:b", some "c", none⟩ =
        RedisTokenInvalidator.get_invalidation_cache_key ⟨some "a", some "b:c", none⟩ := by
  exact ⟨by decide, by decide⟩

/-- Witness for C3's theorem at `{}` (both fields absent). -/
theorem invalid_claims_iff_both_missing_witness :
    RedisTokenInvalidator.get_invalidation_cache_key ⟨none, none, none⟩ =
      .error .valueError
    ∧ CacheTokenInvalidator.invalidate_token (fun _ => none) ⟨none, none, none⟩ 0 =
      .error .valueError
    ∧ CacheTokenInvalidator.is_token_valid (fun _ => none) ⟨none, none, none⟩ 0 =
      .error .valueError
    ∧ BloomFilterTokenInvalidator.invalidate_token (fun _ => [0]) (fun _ => false)
        ⟨none, none, none⟩ = .error .valueError
    ∧ BloomFilterTokenInvalidator.is_token_valid (fun _ => [0]) (fun _ => false)
        ⟨none, none, none⟩ = .error .valueError :=
  (invalid_claims_iff_both_missing ⟨none, none, none⟩ (fun _ => none) (fun _ => [0])
    (fun _ => false) 0 0).1 ⟨rfl, rfl⟩

/-- Witness for C6's amended theorem at `(aud "svc", jti "tok1")`. -/
theorem get_key_format_witness :
    RedisTokenInvalidator.get_invalidation_cache_key ⟨some "svc", some "tok1", none⟩ =
      .ok ("jwt-blacklist:" ++ "svc" ++ ":" ++ "tok1") :=
  get_key_format "svc" "tok1" none (Or.inl (by decide))

theorem cache_invalidate_set (s : ExactStore) (c : TokenClaims) (now : Int)
    (k : String) (e : Int)
    (hk : RedisTokenInvalidator.get_invalidation_cache_key c = .ok k)
    (he : c.exp = some e) (hlt : now < e) :
    CacheTokenInvalidator.invalidate_token s c now =
      .ok (storeSet s k now (e - now), .bool true) := by
  unfold CacheTokenInvalidator.invalidate_token
  rw [hk]
  simp [get_key_truthy c k hk, he]
  omega

theorem cache_invalidate_skip (s : ExactStore) (c : TokenClaims) (now : Int)
    (k : String) (e : Int)
    (hk : RedisTokenInvalidator.get_invalidation_cache_key c = .ok k)
    (he : c.exp = some e) (hle : e ≤ now) :
    CacheTokenInvalidator.invalidate_token s c now = .ok (s, .bool true) := by
  unfold CacheTokenInvalidator.invalidate_token
  rw [hk]
  simp [get_key_truthy c k hk, he]
  omega

theorem cache_valid_of_get (s : ExactStore) (c : TokenClaims) (now : Int) (k : String)
    (hk : RedisTokenInvalidator.get_invalidation_cache_key c = .ok k) :
    CacheTokenInvalidator.is_token_valid s c now =
      .ok (!(storeGet s k now).isSome) := by
  unfold CacheTokenInvalidator.is_token_valid
  rw [hk]
  cases hg : (storeGet s k now).isSome <;>
    simp [get_key_truthy c k hk, hg]

theorem storeGet_storeSet_self (s : ExactStore) (k : String) (now ttl t : Int) :
    storeGet (storeSet s k now ttl) k t = if t < now + ttl then some 1 else none := by
  simp [storeGet, storeSet]

/-- C2 (confirmed): exact backend.  For a well-formed claim whose expiry
`e` is strictly in the future, `invalidate_token` stores the key with
ttl `e - now` (so the entry's deadline is exactly `e`) and reports
success; `is_token_valid` on that claim then answers `false` at every
instant strictly before `e` and `true` again from `e` on (natural
expiry). -/
theorem cache_revoke_temporal (s : ExactStore) (c : TokenClaims) (now : Int)
    (k : String) (e : Int)
    (hk : RedisTokenInvalidator.get_invalidation_cache_key c = .ok k)
    (he : c.exp = some e) (hlt : now < e) :
    CacheTokenInvalidator.invalidate_token s c now =
      .ok (storeSet s k now (e - now), .bool true)
    ∧ (∀ t : Int, t < e →
        CacheTokenInvalidator.is_token_valid (storeSet s k now (e - now)) c t = .ok false)
    ∧ (∀ t : Int, e ≤ t →
        CacheTokenInvalidator.is_token_valid (storeSet s k now (e - now)) c t = .ok true) := by
  refine ⟨cache_invalidate_set s c now k e hk he hlt, ?_, ?_⟩
  · intro t ht
    rw [cache_valid_of_get _ c t k hk, storeGet_storeSet_self, if_pos (by omega)]
    rfl
  · intro t ht
    rw [cache_valid_of_get _ c t k hk, storeGet_storeSet_self, if_neg (by omega)]
    rfl

/-- Witness for C2 at `(aud "a", jti "b", exp 100)`, revoked at time 10,
queried at times 50 (revoked) and 100 (expired again). -/
theorem cache_revoke_temporal_witness :
    CacheTokenInvalidator.invalidate_token (fun _ => none) ⟨some "a", some "b", some 100⟩ 10 =
      .ok (storeSet (fun _ => none) "jwt-blacklist:a:b" 10 (100 - 10), .bool true)
    ∧ CacheTokenInvalidator.is_token_valid
        (storeSet (fun _ => none) "jwt-blacklist:a:b" 10 (100 - 10))
        ⟨some "a", some "b", some 100⟩ 50 = .ok false
    ∧ CacheTokenInvalidator.is_token_valid
        (storeSet (fun _ => none) "jwt-blacklist:a:b" 10 (100 - 10))
        ⟨some "a", some "b", some 100⟩ 100 = .ok true := by
  have h := cache_revoke_temporal (fun _ => none) ⟨some "a", some "b", some 100⟩ 10
    "jwt-blacklist:a:b" 100 (by decide) rfl (by decide)
  exact ⟨h.1, h.2.1 50 (by decide), h.2.2 100 (by decide)⟩

/-- C4 (confirmed): exact backend skip-on-expired.  For a well-formed
claim with `exp ≤ now`, `invalidate_token` returns success with the
store state literally unchanged; consequently a subsequent
`is_token_valid` answers exactly as before the call — in particular
`true` whenever the claim's key has no live entry (never revoked, or
its entry already expired). -/
theorem cache_revoke_skip_expired (s : ExactStore) (c : TokenClaims) (now : Int)
    (k : String) (e : Int)
    (hk : RedisTokenInvalidator.get_invalidation_cache_key c = .ok k)
    (he : c.exp = some e) (hle : e ≤ now) :
    CacheTokenInvalidator.invalidate_token s c now = .ok (s, .bool true)
    ∧ (∀ t : Int, storeGet s k t = none →
        CacheTokenInvalidator.is_token_valid s c t = .ok true) := by
  refine ⟨cache_invalidate_skip s c now k e hk he hle, ?_⟩
  intro t ht
  rw [cache_valid_of_get s c t k hk, ht]
  rfl

/-- Witness for C4 at `(aud "a", jti "b", exp 5)` revoked at time 10 on
the empty store. -/
theorem cache_revoke_skip_expired_witness :
    CacheTokenInvalidator.invalidate_token (fun _ => none) ⟨some "a", some "b", some 5⟩ 10 =
      .ok ((fun _ => none), .bool true)
    ∧ CacheTokenInvalidator.is_token_valid (fun _ => none) ⟨some "a", some "b", some 5⟩ 10 =
      .ok true := by
  have h := cache_revoke_skip_expired (fun _ => none) ⟨some "a", some "b", some 5⟩ 10
    "jwt-blacklist:a:b" 5 (by decide) rfl (by decide)
  exact ⟨h.1, h.2 10 rfl⟩

/-- C5 (confirmed): exact backend idempotence.  For a well-formed claim,
revoking at `n1` and again at any later `n2` succeeds both times and the
second call leaves the store in exactly the state the first call
produced — so `is_token_valid` at every later instant observes the same
state as after a single revocation. -/
theorem cache_revoke_idempotent (s : ExactStore) (c : TokenClaims) (n1 n2 : Int)
    (k : String) (e : Int)
    (hk : RedisTokenInvalidator.get_invalidation_cache_key c = .ok k)
    (he : c.exp = some e) (h12 : n1 ≤ n2) :
    ∃ s1, CacheTokenInvalidator.invalidate_token s c n1 = .ok (s1, .bool true)
      ∧ CacheTokenInvalidator.invalidate_token s1 c n2 = .ok (s1, .bool true) := by
  by_cases h1 : n1 < e
  · refine ⟨storeSet s k n1 (e - n1), cache_invalidate_set s c n1 k e hk he h1, ?_⟩
    by_cases h2 : n2 < e
    · have hset := cache_invalidate_set (storeSet s k n1 (e - n1)) c n2 k e hk he h2
      have heq : storeSet (storeSet s k n1 (e - n1)) k n2 (e - n2) =
          storeSet s k n1 (e - n1) := by
        funext x
        by_cases hx : x = k <;> simp [storeSet, hx]
      rw [hset, heq]
    · exact cache_invalidate_skip (storeSet s k n1 (e - n1)) c n2 k e hk he (by omega)
  · refine ⟨s, cache_invalidate_skip s c n1 k e hk he (by omega), ?_⟩
    exact cache_invalidate_skip s c n2 k e hk he (by omega)

/-- Witness for C5 at `(aud "a", jti "b", exp 100)`, revoked at times 10
and 20. -/
theorem cache_revoke_idempotent_witness :
    ∃ s1, CacheTokenInvalidator.invalidate_token (fun _ => none)
        ⟨some "a", some "b", some 100⟩ 10 = .ok (s1, .bool true)
      ∧ CacheTokenInvalidator.invalidate_token s1 ⟨some "a", some "b", some 100⟩ 20 =
        .ok (s1, .bool true) :=
  cache_revoke_idempotent (fun _ => none) ⟨some "a", some "b", some 100⟩ 10 20
    "jwt-blacklist:a:b" 100 (by decide) rfl (by decide)

/-- C10 (confirmed): in `CacheTokenInvalidator.invalidate_token` the
branch guarded by `not (key or exp)` is unreachable whenever key
derivation succeeds — the derived key is always truthy (non-empty), so
the `ValueError` object is never returned; and for claims with the
expiry absent the unguarded `exp - int(time.time())` is a `TypeError`
(modelled as the raised `typeError`), not a clean error result. -/
theorem cache_invalidate_unguarded_exp :
    (∀ (c : TokenClaims) (k : String),
        RedisTokenInvalidator.get_invalidation_cache_key c = .ok k → truthyStr k = true)
    ∧ (∀ (s : ExactStore) (c : TokenClaims) (now : Int) (k : String) (s2 : ExactStore),
        RedisTokenInvalidator.get_invalidation_cache_key c = .ok k →
        CacheTokenInvalidator.invalidate_token s c now ≠ .ok (s2, .valueErrorObj))
    ∧ (∀ (s : ExactStore) (c : TokenClaims) (now : Int) (k : String),
        RedisTokenInvalidator.get_invalidation_cache_key c = .ok k → c.exp = none →
        CacheTokenInvalidator.invalidate_token s c now = .error .typeError) := by
  refine ⟨get_key_truthy, ?_, ?_⟩
  · intro s c now k s2 hk
    unfold CacheTokenInvalidator.invalidate_token
    rw [hk]
    simp only [get_key_truthy c k hk, Bool.true_or, Bool.not_true]
    rw [if_neg Bool.false_ne_true]
    cases c.exp with
    | none => simp
    | some e =>
      split
      · simp
      · split <;> simp
  · intro s c now k hk he
    unfold CacheTokenInvalidator.invalidate_token
    rw [hk]
    simp [get_key_truthy c k hk, he]

/-- Witness for C10 at `(aud "a", jti "b")`: the derived key is truthy,
the `ValueError`-object return is not produced, and with `exp` absent
the call raises `TypeError`. -/
theorem cache_invalidate_unguarded_exp_witness :
    truthyStr "jwt-blacklist:a:b" = true
    ∧ CacheTokenInvalidator.invalidate_token (fun _ => none) ⟨some "a", some "b", none⟩ 3 ≠
      .ok ((fun _ => none), .valueErrorObj)
    ∧ CacheTokenInvalidator.invalidate_token (fun _ => none) ⟨some "a", some "b", none⟩ 3 =
      .error .typeError :=
  ⟨cache_invalidate_unguarded_exp.1 ⟨some "a", some "b", none⟩ _ (by decide),
   cache_invalidate_unguarded_exp.2.1 (fun _ => none) ⟨some "a", some "b", none⟩ 3
     "jwt-blacklist:a:b" (fun _ => none) (by decide),
   cache_invalidate_unguarded_exp.2.2 (fun _ => none) ⟨some "a", some "b", none⟩ 3
     "jwt-blacklist:a:b" (by decide) rfl⟩

theorem bloomContains_add_self (hash : String → List Nat) (s : BloomState) (key : String) :
    bloomContains hash (bloomAdd hash s key) key = true := by
  simp only [bloomContains, bloomAdd, List.all_eq_true]
  intro i hi
  simp [hi]

theorem bloomContains_mono (hash : String → List Nat) (s s2 : BloomState) (key : String)
    (hmono : ∀ i, s i = true → s2 i = true)
    (h : bloomContains hash s key = true) : bloomContains hash s2 key = true := by
  simp only [bloomContains, List.all_eq_true] at h ⊢
  intro i hi
  exact hmono i (h i hi)

theorem bloom_invalidate_ok_state (hash : String → List Nat) (s : BloomState)
    (c : TokenClaims) (p : BloomState × PyReturn)
    (h : BloomFilterTokenInvalidator.invalidate_token hash s c = .ok p) :
    ∃ k, RedisTokenInvalidator.get_invalidation_cache_key c = .ok k
      ∧ p.1 = bloomAdd hash s k := by
  unfold BloomFilterTokenInvalidator.invalidate_token at h
  cases hk : RedisTokenInvalidator.get_invalidation_cache_key c with
  | error e => rw [hk] at h; exact absurd h (by simp)
  | ok key =>
    rw [hk] at h
    simp only [get_key_truthy c key hk, Bool.not_true, Bool.false_eq_true, if_false] at h
    exact ⟨key, rfl, by rw [← Except.ok.inj h]⟩

theorem bloom_run_mono (hash : String → List Nat) (l : List TokenClaims) :
    ∀ s sf : BloomState, BloomFilterTokenInvalidator.run hash s l = .ok sf →
      ∀ i, s i = true → sf i = true := by
  induction l with
  | nil =>
    intro s sf h i hi
    simp only [BloomFilterTokenInvalidator.run] at h
    rw [← Except.ok.inj h]
    exact hi
  | cons d rest ih =>
    intro s sf h i hi
    cases hd : BloomFilterTokenInvalidator.invalidate_token hash s d with
    | error e => simp [BloomFilterTokenInvalidator.run, hd] at h
    | ok p =>
      have hrest : BloomFilterTokenInvalidator.run hash p.1 rest = .ok sf := by
        simpa [BloomFilterTokenInvalidator.run, hd] using h
      obtain ⟨k, _, hp⟩ := bloom_invalidate_ok_state hash s d p hd
      exact ih p.1 sf hrest i (by simp [hp, bloomAdd, hi])

theorem bloom_run_contains (hash : String → List Nat) (l : List TokenClaims) :
    ∀ (s sf : BloomState) (c : TokenClaims),
      BloomFilterTokenInvalidator.run hash s l = .ok sf → c ∈ l →
      ∃ k, RedisTokenInvalidator.get_invalidation_cache_key c = .ok k
        ∧ bloomContains hash sf k = true := by
  induction l with
  | nil => intro s sf c _ hc; exact absurd hc (List.not_mem_nil c)
  | cons d rest ih =>
    intro s sf c h hc
    cases hd : BloomFilterTokenInvalidator.invalidate_token hash s d with
    | error e => simp [BloomFilterTokenInvalidator.run, hd] at h
    | ok p =>
      have hrest : BloomFilterTokenInvalidator.run hash p.1 rest = .ok sf := by
        simpa [BloomFilterTokenInvalidator.run, hd] using h
      rcases List.mem_cons.mp hc with rfl | hmem
      · obtain ⟨k, hk, hp⟩ := bloom_invalidate_ok_state hash s c p hd
        refine ⟨k, hk, ?_⟩
        exact bloomContains_mono hash p.1 sf k (bloom_run_mono hash rest p.1 sf hrest)
          (hp ▸ bloomContains_add_self hash s k)
      · exact ih p.1 sf c hrest hmem

/-- C1 (confirmed): probabilistic backend.  For any sequence of
`invalidate_token` calls that completes without an exception, every
claim revoked somewhere in the sequence is reported NOT valid by every
subsequent `is_token_valid`: the filter's bits are only ever set, never
unset, so a genuinely revoked token can never be reported valid. -/
theorem bloom_no_false_valid (hash : String → List Nat) (s sf : BloomState)
    (l : List TokenClaims) (c : TokenClaims)
    (hrun : BloomFilterTokenInvalidator.run hash s l = .ok sf) (hc : c ∈ l) :
    BloomFilterTokenInvalidator.is_token_valid hash sf c = .ok false := by
  obtain ⟨k, hk, hcont⟩ := bloom_run_contains hash l s sf c hrun hc
  unfold BloomFilterTokenInvalidator.is_token_valid
  rw [hk]
  simp [get_key_truthy c k hk, hcont]

/-- Witness for C1: one revocation of `(aud "a", jti "b")` on the empty
filter with a single length-hash. -/
theorem bloom_no_false_valid_witness :
    BloomFilterTokenInvalidator.is_token_valid (fun _ => [0])
      (bloomAdd (fun _ => [0]) (fun _ => false) "jwt-blacklist:a:b")
      ⟨some "a", some "b", some 1⟩ = .ok false :=
  bloom_no_false_valid (fun _ => [0]) (fun _ => false)
    (bloomAdd (fun _ => [0]) (fun _ => false) "jwt-blacklist:a:b")
    [⟨some "a", some "b", some 1⟩] ⟨some "a", some "b", some 1⟩ rfl (by simp)

/-- C8 (confirmed): after `clear()` (Redis `flushall`), `is_token_valid`
answers `true` for every well-formed claim on both backends, whatever
set of claims had previously been revoked (the prior store state is
universally quantified).  For the Bloom backend the filter must hash
each key to at least one bit (true of any real Bloom filter). -/
theorem clear_resets_validity :
    (∀ (s : ExactStore) (c : TokenClaims) (k : String) (t : Int),
        RedisTokenInvalidator.get_invalidation_cache_key c = .ok k →
        CacheTokenInvalidator.is_token_valid (CacheTokenInvalidator.clear s) c t = .ok true)
    ∧ (∀ (hash : String → List Nat) (s : BloomState) (c : TokenClaims) (k : String),
        RedisTokenInvalidator.get_invalidation_cache_key c = .ok k → hash k ≠ [] →
        BloomFilterTokenInvalidator.is_token_valid hash
          (BloomFilterTokenInvalidator.clear s) c = .ok true) := by
  constructor
  · intro s c k t hk
    rw [cache_valid_of_get (CacheTokenInvalidator.clear s) c t k hk]
    simp [storeGet, CacheTokenInvalidator.clear]
  · intro hash s c k hk hne
    unfold BloomFilterTokenInvalidator.is_token_valid
    rw [hk]
    have hcont : bloomContains hash (BloomFilterTokenInvalidator.clear s) k = false := by
      unfold bloomContains BloomFilterTokenInvalidator.clear
      cases hl : hash k with
      | nil => exact absurd hl hne
      | cons a as => simp
    simp [hcont]

/-- Witness for C8: a store with every key revoked forever and a filter
with every bit set, both cleared, then queried at `(aud "a", jti "b")`. -/
theorem clear_resets_validity_witness :
    CacheTokenInvalidator.is_token_valid
      (CacheTokenInvalidator.clear (fun _ => some 1000)) ⟨some "a", some "b", some 5⟩ 0 =
      .ok true
    ∧ BloomFilterTokenInvalidator.is_token_valid (fun _ => [0])
        (BloomFilterTokenInvalidator.clear (fun _ => true)) ⟨some "a", some "b", some 5⟩ =
      .ok true :=
  ⟨clear_resets_validity.1 (fun _ => some 1000) ⟨some "a", some "b", some 5⟩
      "jwt-blacklist:a:b" 0 (by decide),
   clear_resets_validity.2 (fun _ => [0]) (fun _ => true) ⟨some "a", some "b", some 5⟩
      "jwt-blacklist:a:b" (by decide) (by simp)⟩

theorem gen_from_spec (num : Int) (ids : Nat → String) (clock : Nat → Int) :
    ∀ (n : Nat) (count : Nat), (num - count).toNat = n →
      jwt_token_generator_from num ids clock count =
        (List.range n).map (fun i => generatedToken ids clock (count + i)) := by
  intro n
  induction n with
  | zero =>
    intro count hn
    rw [jwt_token_generator_from, dif_neg (by omega)]
    simp
  | succ m ih =>
    intro count hn
    have hcond : (count : Int) ≤ num - 1 := by omega
    rw [jwt_token_generator_from, dif_pos hcond,
      ih (count + 1) (by push_cast; omega), List.range_succ_eq_map]
    simp only [List.map_cons, List.map_map, Nat.add_zero, List.cons.injEq, true_and]
    congr 1
    funext i
    congr 1
    omega

/-- C9 (confirmed): for every natural `count` (including 0),
`jwt_token_generator(count)` yields exactly `count` claims; the `k`-th
claim has the non-empty audience `"foo-bar"`, the `k`-th freshly drawn
uuid as its unique id (distinct ids when the uuid source is injective),
and expiry equal to the generation-time clock reading plus the fixed
two-week validity window (`validityWindow = 60*60*24*14` seconds). -/
theorem jwt_token_generator_spec (count : Nat) (ids : Nat → String) (clock : Nat → Int) :
    (jwt_token_generator count ids clock).length = count
    ∧ (∀ k, k < count → (jwt_token_generator count ids clock).get? k =
        some { aud := some "foo-bar", jti := some (ids k),
               exp := some (clock k + validityWindow) })
    ∧ ("foo-bar" : String) ≠ ""
    ∧ validityWindow = 60 * 60 * 24 * 14
    ∧ (Function.Injective ids →
        ((jwt_token_generator count ids clock).map TokenClaims.jti).Nodup) := by
  have hg : jwt_token_generator count ids clock =
      (List.range count).map (fun i => generatedToken ids clock i) := by
    unfold jwt_token_generator
    have h := gen_from_spec count ids clock count 0 (by push_cast; omega)
    simpa using h
  refine ⟨by simp [hg], ?_, by decide, by decide, ?_⟩
  · intro k hk
    rw [hg]
    simp only [List.get?_eq_getElem?, List.getElem?_map, List.getElem?_range hk,
      generatedToken]
    rfl
  · intro hids
    rw [hg, List.map_map]
    have : (TokenClaims.jti ∘ fun i => generatedToken ids clock i) =
        fun i => some (ids i) := by
      funext i
      simp [generatedToken]
    rw [this]
    exact (List.nodup_range count).map fun a b hab => hids (Option.some.inj hab)

/-- Witness for C9 at `count = 2` with an injective uuid source. -/
theorem jwt_token_generator_spec_witness :
    (jwt_token_generator 2 (fun k => String.mk (List.replicate k 'j')) (fun _ => 50)).length = 2
    ∧ (jwt_token_generator 2 (fun k => String.mk (List.replicate k 'j')) (fun _ => 50)).get? 1 =
        some { aud := some "foo-bar", jti := some (String.mk (List.replicate 1 'j')),
               exp := some (50 + validityWindow) }
    ∧ ((jwt_token_generator 2 (fun k => String.mk (List.replicate k 'j'))
        (fun _ => 50)).map TokenClaims.jti).Nodup := by
  have h := jwt_token_generator_spec 2 (fun k => String.mk (List.replicate k 'j')) (fun _ => 50)
  exact ⟨h.1, h.2.1 1 (by decide),
    h.2.2.2.2 fun a b hab => by simpa using congrArg (fun s => s.data.length) hab⟩

/-- Witness for C7's amended theorem at `("svc","t1")` vs `("svc","t2")`. -/
theorem get_key_injective_colon_free_witness :
    RedisTokenInvalidator.get_invalidation_cache_key ⟨some "svc", some "t1", none⟩ ≠
      RedisTokenInvalidator.get_invalidation_cache_key ⟨some "svc", some "t2", none⟩ :=
  get_key_injective_colon_free "svc" "t1" "svc" "t2" none none (by decide) (by decide)
    (by decide) (Or.inl (by decide)) (Or.inl (by decide))
